import Mathlib

/-!
Verification of the htsget-server core against its specification.

The byte-level functions embed `htsgetserver/utils.py` (`get_bam_header_size`),
the router embeds `htsgetserver/server.py` (`Router.add_route`,
`Router.get_route_handler`), content negotiation and the ticket handler embed
`htsgetserver/__init__.py` (`HtsgetHttpRequestHandler.check_headers`,
`ApiRouteHandler.handle`, `HtsgetHttpRequestHandler.handle_error`).

Byte streams are `List Nat` (one `Nat` per byte), machine integers are `Nat`
with explicit `% 2^w` arithmetic in the encoders, and fallible reads return
`Except`.
-/

/-- Errors of the index-free scan: `eof` models the binary reader running out
of bytes, the other three model the three `ValueError`s raised in
`get_bam_header_size` for a malformed BGZF block header. -/
inductive ScanError where
  | eof
  | badXlen
  | badSubfieldId
  | badSlen
deriving DecidableEq, Repr

instance {ε α : Type} [DecidableEq ε] [DecidableEq α] : DecidableEq (Except ε α) := fun x y =>
  match x, y with
  | .error a, .error b =>
      if h : a = b then isTrue (by rw [h]) else
        isFalse (by intro hh; injection hh; contradiction)
  | .ok a, .ok b =>
      if h : a = b then isTrue (by rw [h]) else
        isFalse (by intro hh; injection hh; contradiction)
  | .error _, .ok _ => isFalse (by intro hh; exact Except.noConfusion hh)
  | .ok _, .error _ => isFalse (by intro hh; exact Except.noConfusion hh)

/-- Modelled from the spec: the `BinReader` of the external `ngsindex` library
(the spec's BinaryCursor, a "sequential reader over a byte stream with
fixed-width integer/string decoding in a declared byte order"; its source is
not under `src/`). Reading `n` bytes from the stream either yields the bytes
and the remaining stream or fails at end of input. -/
def readBytesE (n : Nat) (s : List Nat) : Except ScanError (List Nat × List Nat) :=
  if n ≤ s.length then .ok (s.take n, s.drop n) else .error ScanError.eof

/-- Little-endian value of a byte list (byte order `"<"` in the source). -/
def leVal : List Nat → Nat
  | [] => 0
  | b :: rest => b + 256 * leVal rest

/-- Modelled from the spec: `BinReader.read_uint`, a 4-byte little-endian
unsigned integer. -/
def read_uint (s : List Nat) : Except ScanError (Nat × List Nat) :=
  match readBytesE 4 s with
  | .error e => .error e
  | .ok (bs, rest) => .ok (leVal bs, rest)

/-- Modelled from the spec: `BinReader.read_int`, a 4-byte little-endian
integer. The BAM length fields read through it are non-negative in any
well-formed header, so it is modelled with the same unsigned decoding as
`read_uint`. -/
def read_int (s : List Nat) : Except ScanError (Nat × List Nat) :=
  read_uint s

/-- Modelled from the spec: `BinReader.read_ushort`, a 2-byte little-endian
unsigned integer. -/
def read_ushort (s : List Nat) : Except ScanError (Nat × List Nat) :=
  match readBytesE 2 s with
  | .error e => .error e
  | .ok (bs, rest) => .ok (leVal bs, rest)

/-- Pass 1 reference loop of `get_bam_header_size` (utils.py lines 129-133):
for each of `n_ref` references read a 4-byte name length, skip the name,
skip the 4-byte sequence length, and add `8 + l_name` to the accumulator. -/
def pass1_refs : Nat → List Nat → Nat → Except ScanError Nat
  | 0, _, acc => .ok acc
  | n + 1, s, acc =>
    match read_int s with
    | .error e => .error e
    | .ok (l_name, s1) =>
      match readBytesE l_name s1 with
      | .error e => .error e
      | .ok (_, s2) =>
        match read_int s2 with
        | .error e => .error e
        | .ok (_, s3) => pass1_refs n s3 (acc + 8 + l_name)

/-- Pass 1 of `get_bam_header_size` (utils.py lines 120-133), over the
decompressed BAM stream: start from `uncompressed_size = 12`, read the 3-byte
magic string and the version byte, read the header-text length and skip the
text (adding the length), read the reference count, then run the per-reference
loop. The result is the uncompressed size of the header. -/
def get_bam_header_size_pass1 (s : List Nat) : Except ScanError Nat :=
  match readBytesE 3 s with
  | .error e => .error e
  | .ok (_, s1) =>
    match readBytesE 1 s1 with
    | .error e => .error e
    | .ok (_, s2) =>
      match read_int s2 with
      | .error e => .error e
      | .ok (l_text, s3) =>
        match readBytesE l_text s3 with
        | .error e => .error e
        | .ok (_, s4) =>
          match read_int s4 with
          | .error e => .error e
          | .ok (n_ref, s5) => pass1_refs n_ref s5 (12 + l_text)

/-- One iteration of the Pass-2 while loop of `get_bam_header_size`
(utils.py lines 141-155): read one BGZF block header over the raw compressed
stream, performing the three `ValueError` checks in source order, and return
the declared `BSIZE`, the declared `ISIZE` and the remaining stream. -/
def read_block (s : List Nat) : Except ScanError (Nat × Nat × List Nat) :=
  match readBytesE 4 s with
  | .error e => .error e
  | .ok (_, s1) =>
    match read_uint s1 with
    | .error e => .error e
    | .ok (_, s2) =>
      match readBytesE 2 s2 with
      | .error e => .error e
      | .ok (_, s3) =>
        match read_ushort s3 with
        | .error e => .error e
        | .ok (xlen, s4) =>
          if xlen ≠ 6 then .error ScanError.badXlen else
          match readBytesE 2 s4 with
          | .error e => .error e
          | .ok (ids, s5) =>
            if ids ≠ [66, 67] then .error ScanError.badSubfieldId else
            match read_ushort s5 with
            | .error e => .error e
            | .ok (slen, s6) =>
              if slen ≠ 2 then .error ScanError.badSlen else
              match read_ushort s6 with
              | .error e => .error e
              | .ok (bsize, s7) =>
                match readBytesE (bsize - xlen - 19) s7 with
                | .error e => .error e
                | .ok (_, s8) =>
                  match read_uint s8 with
                  | .error e => .error e
                  | .ok (_, s9) =>
                    match read_uint s9 with
                    | .error e => .error e
                    | .ok (isize, s10) => .ok (bsize, isize, s10)

/-- Pass 2 while loop of `get_bam_header_size` (utils.py lines 138-156):
while the accumulated `ISIZE` total is below the uncompressed header size,
read one block, add its `BSIZE` to `header_size` and its `ISIZE` to
`block_size`; on exit return `header_size + 1`. The loop is driven by fuel;
every successful `read_block` consumes at least 26 bytes of the stream
(see `read_block_shrinks`), so the fuel `s.length + 1` supplied by
`get_bam_header_size_noindex` can never run out before the source loop would
stop or fail. -/
def scan_blocks : Nat → List Nat → Nat → Nat → Nat → Except ScanError Nat
  | 0, _, header_size, block_size, uncompressed_size =>
    if block_size < uncompressed_size then .error ScanError.eof
    else .ok (header_size + 1)
  | fuel + 1, s, header_size, block_size, uncompressed_size =>
    if block_size < uncompressed_size then
      match read_block s with
      | .error e => .error e
      | .ok (bsize, isize, rest) =>
          scan_blocks fuel rest (header_size + bsize) (block_size + isize) uncompressed_size
    else .ok (header_size + 1)

/-- The index-free branch of `get_bam_header_size` (utils.py lines 118-156).
The two `bam_resource.open` calls of the source yield two views of the same
file; they are the two arguments: `decompressed` is the decompressed stream
(`decompress=True`), `raw` the raw compressed stream (`decompress=False`). -/
def get_bam_header_size_noindex (decompressed raw : List Nat) : Except ScanError Nat :=
  match get_bam_header_size_pass1 decompressed with
  | .error e => .error e
  | .ok uncompressed_size => scan_blocks (raw.length + 1) raw 0 0 uncompressed_size

/-- Modelled from the spec: one interval of the linear index parsed by the
external `ngsindex.parse_index` (not under `src/`); the spec describes "a
sequence of reference entries, each holding a sequence of (offset, ...)
intervals". Only the `file_offset` field is consumed by the source. -/
structure IndexInterval where
  file_offset : Nat
deriving DecidableEq, Repr

/-- Modelled from the spec: one reference entry of the parsed index. -/
structure RefIndexEntry where
  intervals : List IndexInterval
deriving DecidableEq, Repr

/-- Modelled from the spec: the parsed index returned by
`ngsindex.parse_index`. -/
structure ParsedIndex where
  ref_indexes : List RefIndexEntry
deriving DecidableEq, Repr

/-- The file offsets enumerated by the generator expression in utils.py lines
160-164, in generator order. -/
def index_offsets (idx : ParsedIndex) : List Nat :=
  (idx.ref_indexes.map (fun r => r.intervals.map (fun o => o.file_offset))).flatten

/-- Python's `min` over a non-empty iterable (fold of binary min over the
items); `none` models the `ValueError` Python raises on an empty iterable. -/
def py_min : List Nat → Option Nat
  | [] => none
  | x :: xs => some (xs.foldl Nat.min x)

/-- The index-assisted branch of `get_bam_header_size` (utils.py lines
157-164): the minimum `file_offset` over every interval of every reference of
the parsed index. -/
def get_bam_header_size_indexed (idx : ParsedIndex) : Option Nat :=
  py_min (index_offsets idx)

/-- 4-byte little-endian encoding of `n % 2^32`; used to build the synthetic
streams the theorems feed to the source functions. -/
def encodeU32 (n : Nat) : List Nat :=
  [n % 256, n / 256 % 256, n / 65536 % 256, n / 16777216 % 256]

/-- 2-byte little-endian encoding of `n % 2^16`. -/
def encodeU16 (n : Nat) : List Nat :=
  [n % 256, n / 256 % 256]

/-- Serialized form of one reference entry of a decompressed BAM header:
4-byte name length, name bytes, 4-byte sequence length. -/
def encode_bam_ref (r : List Nat × Nat) : List Nat :=
  encodeU32 r.1.length ++ r.1 ++ encodeU32 r.2

/-- Serialized decompressed BAM header: 3 magic bytes, version byte, 4-byte
text length, text, 4-byte reference count, then the encoded references. -/
def encode_bam_header (text : List Nat) (refs : List (List Nat × Nat)) : List Nat :=
  [66, 65, 77] ++ [1] ++ encodeU32 text.length ++ text
    ++ encodeU32 refs.length ++ (refs.map encode_bam_ref).flatten

/-- Serialized well-formed BGZF block: 4 fixed bytes, 4-byte MTIME, XFL and OS
bytes, XLEN = 6, subfield identifiers (66, 67), SLEN = 2, the 2-byte declared
BSIZE (= total block size - 1 = `cdata.length + 25`), the compressed payload,
4-byte CRC32 and 4-byte ISIZE. -/
def encode_bgzf_block (mtime xfl os : Nat) (cdata : List Nat) (crc isize : Nat) : List Nat :=
  [31, 139, 8, 4] ++ encodeU32 mtime ++ [xfl, os] ++ encodeU16 6 ++ [66, 67]
    ++ encodeU16 2 ++ encodeU16 (cdata.length + 25) ++ cdata
    ++ encodeU32 crc ++ encodeU32 isize

/-- Serialized BGZF block header (18 bytes) with arbitrary XLEN, subfield
identifier bytes and SLEN; used to exercise the malformed-header checks. -/
def encode_bgzf_bad_header (mtime xfl os xlen id1 id2 slen : Nat) : List Nat :=
  [31, 139, 8, 4] ++ encodeU32 mtime ++ [xfl, os] ++ encodeU16 xlen
    ++ [id1, id2] ++ encodeU16 slen

/-- The `ValueError` the Pass-2 scan raises for a malformed block header, in
source check order: XLEN first, then the subfield identifiers, then SLEN. -/
def bad_header_error (xlen id1 id2 _slen : Nat) : ScanError :=
  if xlen ≠ 6 then ScanError.badXlen
  else if [id1, id2] ≠ [66, 67] then ScanError.badSubfieldId
  else ScanError.badSlen

/-- A block of the Pass-2 scan regarded as well formed: payload, checksum and
declared ISIZE, with the header fields the scan validates set correctly by
`encode_bgzf_block`. -/
structure GoodBlock where
  mtime : Nat
  xfl : Nat
  os : Nat
  cdata : List Nat
  crc : Nat
  isize : Nat

/-- Serialize a `GoodBlock`. -/
def encode_good_block (b : GoodBlock) : List Nat :=
  encode_bgzf_block b.mtime b.xfl b.os b.cdata b.crc b.isize

/-- Association-list lookup with first-match semantics; models reading a key
of a Python `dict` in the source (`route_dict[part]`, `self._cache[k]`). -/
def assocGet {K V : Type} [DecidableEq K] : List (K × V) → K → Option V
  | [], _ => none
  | (k1, v) :: rest, k => if k1 = k then some v else assocGet rest k

/-- Association-list store; models writing a key of a Python `dict`
(`route_dict[part] = v`, `self._cache[k] = v`): replace the existing binding
or append a new one. -/
def assocSet {K V : Type} [DecidableEq K] : List (K × V) → K → V → List (K × V)
  | [], k, v => [(k, v)]
  | (k1, v1) :: rest, k, v =>
    if k1 = k then (k, v) :: rest else (k1, v1) :: assocSet rest k v

/-- A value of the nested-`dict` route trie of `Router` (server.py): either a
bound handler (identified by a number) or an inner node. -/
inductive RouteEntry where
  | handler : Nat → RouteEntry
  | node : List (String × RouteEntry) → RouteEntry

/-- `Router.add_route` (server.py lines 88-97): walk/create nodes for all but
the last path segment, then bind the last segment to the handler. `none`
models the exceptions Python would raise on an empty path (`IndexError` on
`path[-1]`) or on descending through a segment already bound to a handler
(`TypeError` when the loop then treats the handler as a `dict`). -/
def add_route (m : List (String × RouteEntry)) (path : List String) (hnd : Nat) :
    Option (List (String × RouteEntry)) :=
  match path with
  | [] => none
  | [last] => some (assocSet m last (RouteEntry.handler hnd))
  | part :: next :: rest =>
    match assocGet m part with
    | none =>
      match add_route [] (next :: rest) hnd with
      | none => none
      | some sub => some (assocSet m part (RouteEntry.node sub))
    | some (RouteEntry.node sub) =>
      match add_route sub (next :: rest) hnd with
      | none => none
      | some sub1 => some (assocSet m part (RouteEntry.node sub1))
    | some (RouteEntry.handler _) => none

/-- `Router.get_route_handler` (server.py lines 99-110): walk the trie segment
by segment; an absent segment raises `NotFound` (`none`), descending continues
on inner nodes, and hitting a handler returns it with the unconsumed
segments; a walk that exhausts the path on an inner node falls through to the
`for`-`else` and raises `NotFound` (`none`). -/
def get_route_handler (m : List (String × RouteEntry)) (path : List String) :
    Option (Nat × List String) :=
  match path with
  | [] => none
  | p :: rest =>
    match assocGet m p with
    | none => none
    | some (RouteEntry.node sub) => get_route_handler sub rest
    | some (RouteEntry.handler h) => some (h, rest)

/-- The trie produced by registering a single non-empty path in an empty
router: a spine of inner nodes ending in the handler. Proof-side description,
related to `add_route` by `add_route_empty_eq`. -/
def build_spine : List String → Nat → List (String × RouteEntry)
  | [], _ => []
  | [last], hnd => [(last, RouteEntry.handler hnd)]
  | p :: q :: rest, hnd => [(p, RouteEntry.node (build_spine (q :: rest) hnd))]

/-- `HTSGET_VERSION` (line 19 of `htsgetserver/__init__.py`), as the list of
its components; Python compares the tuple lexicographically. -/
def HTSGET_VERSION : List Int := [1, 1, 0]

/-- `OK_RESPONSE_CONTENT_TYPE` (lines 20-21 of `htsgetserver/__init__.py`).
The source assigns a plain (non-f-string) literal, so the braces and the
expression between them are part of the value. -/
def OK_RESPONSE_CONTENT_TYPE : String :=
  "application/vnd.ga4gh.htsget.v\x7b\x27.\x27.join(HTSGET_VERSION)\x7d+json; charset=utf-8"

/-- `ERROR_RESPONSE_CONTENT_TYPE` (line 22 of `htsgetserver/__init__.py`). -/
def ERROR_RESPONSE_CONTENT_TYPE : String := "application/json"

/-- `HttpError` (server.py lines 15-28): HTTP status, the `error_type` field,
the exception `args`, and the `args` of the `__cause__` when one was attached
with `raise ... from ...` (`none` = no cause, i.e. `__cause__ is None`). -/
structure HttpErrorModel where
  status : Nat
  error_type : String
  args : List String
  causeArgs : Option (List String)
deriving DecidableEq, Repr

/-- `NotFoundHttpError` (server.py lines 31-38): status 404, error type
`"NotFound"`, message argument `"The resource requested was not found"`. -/
def notFoundHttpError (_path : String) : HttpErrorModel :=
  { status := 404, error_type := "NotFound",
    args := ["The resource requested was not found"], causeArgs := none }

/-- `UnsupportedMediaTypeHttpError` (`__init__.py` lines 35-40): the source
passes only the status and the formatted message to `HttpError.__init__`, so
the message lands in the `error_type` slot and `args` is empty. -/
def unsupportedMediaTypeHttpError (media_type : String) : HttpErrorModel :=
  { status := 415,
    error_type := "The requested media type is unsupported: " ++ media_type,
    args := [], causeArgs := none }

/-- `HttpError.message` (server.py lines 21-28): the first exception argument
if any; otherwise the first argument of the `__cause__`. With no arguments and
no cause the source evaluates `None.args` and raises `AttributeError`,
modelled as `none`; a cause with empty `args` leaves the message `""`. -/
def http_error_message (e : HttpErrorModel) : Option String :=
  match e.args with
  | m :: _ => some m
  | [] =>
    match e.causeArgs with
    | none => none
    | some [] => some ""
    | some (m :: _) => some m

/-- The error reply assembled by `HtsgetHttpRequestHandler.handle_error`
(`__init__.py` lines 208-218): status, `Content-type` header, and the decoded
`{"htsget": {"error": ..., "message": ...}}` body. -/
structure ErrorResponse where
  status : Nat
  content_type : String
  error_field : String
  message_field : String
deriving DecidableEq, Repr

/-- `HtsgetHttpRequestHandler.handle_error` (`__init__.py` lines 208-218):
send the error status, the JSON content type and the
`{"htsget": {"error": err.error_type, "message": err.message}}` body. `none`
models the `AttributeError` escaping from `err.message` (no response body is
produced). -/
def handle_error (e : HttpErrorModel) : Option ErrorResponse :=
  match http_error_message e with
  | none => none
  | some m =>
    some { status := e.status, content_type := ERROR_RESPONSE_CONTENT_TYPE,
           error_field := e.error_type, message_field := m }

/-- Python `str.startswith` on character lists. -/
def listStartsWith : List Char → List Char → Bool
  | _, [] => true
  | [], _ :: _ => false
  | a :: as, b :: bs => a = b && listStartsWith as bs

/-- Python `str.endswith` on character lists. -/
def listEndsWith (s suf : List Char) : Bool :=
  listStartsWith s.reverse suf.reverse

/-- Python `str.lower` on character lists (ASCII). -/
def pyLower (s : List Char) : List Char :=
  s.map Char.toLower

/-- Python slice `s[a:-b]` (from index `a` up to `b` characters before the
end). -/
def pySliceToNeg (s : List Char) (a b : Nat) : List Char :=
  (s.take (s.length - b)).drop a

/-- Python `str.split(sep)` for a one-character separator: `""` splits to
`[""]`, and every separator occurrence starts a new piece. -/
def pySplit (s : List Char) (sep : Char) : List (List Char) :=
  match s with
  | [] => [[]]
  | c :: rest =>
    let r := pySplit rest sep
    if c = sep then [] :: r
    else
      match r with
      | h :: t => (c :: h) :: t
      | [] => [[c]]

/-- Value of a non-empty all-digit character list. -/
def digitsToNat (cs : List Char) : Option Nat :=
  match cs with
  | [] => none
  | _ :: _ =>
    if cs.all Char.isDigit then
      some (cs.foldl (fun acc c => acc * 10 + (c.toNat - 48)) 0)
    else none

/-- Python `int(str)` restricted to the shapes content negotiation can meet:
an optional sign followed by digits; anything else raises (`none`). (The
whitespace and underscore liberality of the Python parser is never exercised
by a media-type version field and is not modelled.) -/
def py_int (s : List Char) : Option Int :=
  match s with
  | '-' :: rest => (digitsToNat rest).map (fun n => -(n : Int))
  | '+' :: rest => (digitsToNat rest).map (fun n => (n : Int))
  | _ => (digitsToNat s).map (fun n => (n : Int))

/-- `tuple(int(v) for v in s.split("."))` of `check_headers`: every
dot-separated piece must parse as an integer. -/
def parse_accept_version (s : List Char) : Option (List Int) :=
  (pySplit s '.').mapM py_int

/-- Python tuple/list `<`: lexicographic, with a strict prefix comparing
less. -/
def pyTupLt : List Int → List Int → Bool
  | _, [] => false
  | [], _ :: _ => true
  | a :: as, b :: bs => if a < b then true else if a = b then pyTupLt as bs else false

/-- `HtsgetHttpRequestHandler.check_headers` (`__init__.py` lines 180-206).
The argument is the value of the `Accept` header when the request carries one
(`none` = header absent). Faithful points: the lowercased `accept_app` drops
the 12-character `"application/"`, but the version is parsed from
`accept[18:-5]` of the **full** header value, exactly as in the source; the
version comparison is `version < HTSGET_VERSION or version[0] >
HTSGET_VERSION[0]` (`headD` stands for `version[0]`, which Python evaluates
only after a successful non-empty parse). -/
def check_headers (accept? : Option String) : Except HttpErrorModel Unit :=
  match accept? with
  | none => .ok ()
  | some accept =>
    let ac := accept.toList
    if ¬ (listStartsWith ac "application/".toList) then
      .error (unsupportedMediaTypeHttpError accept)
    else
      let accept_app := pyLower (ac.drop 12)
      if accept_app = "json".toList then .ok ()
      else if listStartsWith accept_app "vnd.ga4gh.htsget.v".toList
             && listEndsWith accept_app "+json".toList then
        match parse_accept_version (pySliceToNeg ac 18 5) with
        | none => .error (unsupportedMediaTypeHttpError accept)
        | some version =>
          if pyTupLt version HTSGET_VERSION || version.headD 0 > HTSGET_VERSION.headD 0 then
            .error (unsupportedMediaTypeHttpError accept)
          else .ok ()
      else .error (unsupportedMediaTypeHttpError accept)

/-- The `check_headers`/`route_request` sequencing of
`RoutingHttpRequestHandler.do_GET` (server.py lines 52-62): a header-check
failure short-circuits; otherwise the request proceeds to routing and the
outcome is the routing outcome. -/
def do_GET_model (accept? : Option String) (route_result : Except HttpErrorModel Unit) :
    Except HttpErrorModel Unit :=
  match check_headers accept? with
  | .error e => .error e
  | .ok _ => route_result

/-- The collaborators of `ApiRouteHandler.handle` (`__init__.py` lines
96-127), abstracted as pure functions exactly as the spec's data-store
contract requires (`resolve` "pure in its inputs"): `resolve` yields the data
resource (the cache key `K`) and whether the index resource exists;
`make_ticket` is the deterministic composition of `create_ticket_urls` and
`json.dumps` for a record and format. -/
structure ApiEnv (K : Type) where
  default_format : String
  resolve : List String → String → K × Bool
  make_ticket : List String → String → String

/-- Result of one `ApiRouteHandler.handle` call: the cache afterwards, the
response line/headers/body, and whether the call touched
`index_resource.exists` (`checked_index`) or ran `create_index`
(`created_index`). -/
structure ApiHandleResult (K : Type) where
  cache : List (K × String)
  status : Nat
  content_type : String
  body : String
  checked_index : Bool
  created_index : Bool

/-- `ApiRouteHandler.handle` (`__init__.py` lines 96-127): resolve the record,
serve the cached ticket verbatim on a hit; on a miss check the index, create
it when absent, build and serialize the ticket, then insert it under the
lock's re-check (`if data_resource not in self._cache`). Every exit sends
status 200 with `OK_RESPONSE_CONTENT_TYPE` and the ticket string. -/
def api_handle {K : Type} [DecidableEq K] (env : ApiEnv K) (cache : List (K × String))
    (record_id : List String) (query_format : Option String) : ApiHandleResult K :=
  let data_format := query_format.getD env.default_format
  let res := env.resolve record_id data_format
  let data_resource := res.1
  let index_exists := res.2
  match assocGet cache data_resource with
  | some ticket_str =>
      { cache := cache, status := 200, content_type := OK_RESPONSE_CONTENT_TYPE,
        body := ticket_str, checked_index := false, created_index := false }
  | none =>
      let ticket_str := env.make_ticket record_id data_format
      let cache1 :=
        match assocGet cache data_resource with
        | none => assocSet cache data_resource ticket_str
        | some _ => cache
      { cache := cache1, status := 200, content_type := OK_RESPONSE_CONTENT_TYPE,
        body := ticket_str, checked_index := true, created_index := !index_exists }

/-- The index of the spec's index-path test vector: one reference whose
intervals have file offsets 500, 200 and 800. -/
def example_index : ParsedIndex :=
  { ref_indexes := [{ intervals := [{ file_offset := 500 }, { file_offset := 200 },
      { file_offset := 800 }] }] }

/-- A concrete collaborator environment for exercising `api_handle`: record
`x` resolves to data-resource key 5 with an existing index, and tickets
serialize to `"TICKET"`. -/
def example_api_env : ApiEnv Nat :=
  { default_format := "BAM",
    resolve := fun _ _ => (5, true),
    make_ticket := fun _ _ => "TICKET" }

lemma list_take_len_append {α : Type} (xs ys : List α) : (xs ++ ys).take xs.length = xs := by
  induction xs with
  | nil => rfl
  | cons a as ih => simp [List.take, ih]

lemma list_drop_len_append {α : Type} (xs ys : List α) : (xs ++ ys).drop xs.length = ys := by
  induction xs with
  | nil => rfl
  | cons a as ih => simp [List.drop, ih]

lemma readBytesE_exact (xs ys : List Nat) : readBytesE xs.length (xs ++ ys) = .ok (xs, ys) := by
  simp [readBytesE, List.length_append, Nat.le_add_right, list_take_len_append,
    list_drop_len_append]

lemma read_uint_append (bs rest : List Nat) (h : bs.length = 4) :
    read_uint (bs ++ rest) = .ok (leVal bs, rest) := by
  have hx : readBytesE 4 (bs ++ rest) = .ok (bs, rest) := h ▸ readBytesE_exact bs rest
  simp [read_uint, hx]

lemma read_ushort_append (bs rest : List Nat) (h : bs.length = 2) :
    read_ushort (bs ++ rest) = .ok (leVal bs, rest) := by
  have hx : readBytesE 2 (bs ++ rest) = .ok (bs, rest) := h ▸ readBytesE_exact bs rest
  simp [read_ushort, hx]

lemma leVal_encodeU32 (n : Nat) (h : n < 4294967296) : leVal (encodeU32 n) = n := by
  simp only [encodeU32, leVal]
  omega

lemma leVal_encodeU16 (n : Nat) (h : n < 65536) : leVal (encodeU16 n) = n := by
  simp only [encodeU16, leVal]
  omega

lemma read_uint_encodeU32 (n : Nat) (rest : List Nat) (h : n < 4294967296) :
    read_uint (encodeU32 n ++ rest) = .ok (n, rest) := by
  rw [read_uint_append (encodeU32 n) rest rfl, leVal_encodeU32 n h]

lemma read_ushort_encodeU16 (n : Nat) (rest : List Nat) (h : n < 65536) :
    read_ushort (encodeU16 n ++ rest) = .ok (n, rest) := by
  rw [read_ushort_append (encodeU16 n) rest rfl, leVal_encodeU16 n h]

lemma read_int_encodeU32 (n : Nat) (rest : List Nat) (h : n < 4294967296) :
    read_int (encodeU32 n ++ rest) = .ok (n, rest) :=
  read_uint_encodeU32 n rest h

lemma pass1_refs_encode (refs : List (List Nat × Nat)) (rest : List Nat) (acc : Nat)
    (hr : ∀ r ∈ refs, r.1.length < 4294967296) :
    pass1_refs refs.length ((refs.map encode_bam_ref).flatten ++ rest) acc
      = .ok (acc + (refs.map (fun r => 8 + r.1.length)).sum) := by
  induction refs generalizing acc with
  | nil => simp [pass1_refs]
  | cons r rs ih =>
    have hlen : r.1.length < 4294967296 := hr r (List.mem_cons_self r rs)
    have hrs : ∀ q ∈ rs, q.1.length < 4294967296 := fun q hq => hr q (List.mem_cons_of_mem r hq)
    have h2 : readBytesE r.1.length
        (r.1 ++ (encodeU32 r.2 ++ ((rs.map encode_bam_ref).flatten ++ rest)))
        = .ok (r.1, encodeU32 r.2 ++ ((rs.map encode_bam_ref).flatten ++ rest)) :=
      readBytesE_exact _ _
    have h3 : read_int (encodeU32 r.2 ++ ((rs.map encode_bam_ref).flatten ++ rest))
        = .ok (leVal (encodeU32 r.2), (rs.map encode_bam_ref).flatten ++ rest) :=
      read_uint_append (encodeU32 r.2) _ rfl
    simp only [List.map_cons, List.flatten_cons, List.length_cons, encode_bam_ref,
      List.append_assoc]
    rw [pass1_refs, read_int_encodeU32 r.1.length _ hlen]
    dsimp only
    rw [h2]
    dsimp only
    rw [h3]
    dsimp only
    rw [ih (acc + 8 + r.1.length) hrs]
    simp only [List.map_cons, List.sum_cons]
    congr 1
    omega

lemma readBytesE_exact3 (a b c : Nat) (ys : List Nat) :
    readBytesE 3 ([a, b, c] ++ ys) = .ok ([a, b, c], ys) :=
  readBytesE_exact [a, b, c] ys

lemma readBytesE_exact1 (a : Nat) (ys : List Nat) :
    readBytesE 1 ([a] ++ ys) = .ok ([a], ys) :=
  readBytesE_exact [a] ys

lemma pass1_encode_formula (text : List Nat) (refs : List (List Nat × Nat))
    (rest : List Nat) (ht : text.length < 4294967296) (hn : refs.length < 4294967296)
    (hr : ∀ r ∈ refs, r.1.length < 4294967296) :
    get_bam_header_size_pass1 (encode_bam_header text refs ++ rest)
      = .ok (12 + text.length + (refs.map (fun r => 8 + r.1.length)).sum) := by
  simp only [encode_bam_header, List.append_assoc]
  rw [get_bam_header_size_pass1]
  rw [readBytesE_exact3]
  dsimp only
  rw [readBytesE_exact1]
  dsimp only
  rw [read_int_encodeU32 text.length _ ht]
  dsimp only
  rw [readBytesE_exact]
  dsimp only
  rw [read_int_encodeU32 refs.length _ hn]
  dsimp only
  rw [pass1_refs_encode refs rest (12 + text.length) hr]

/-- C1 (amended): Pass 1 of `get_bam_header_size` computes the uncompressed
header size of a well-formed decompressed BAM header stream with text length
`L` and reference name lengths `ln_i` as `4 + 4 + 4 + L + Σ(8 + ln_i)`
(= `12 + L + Σ(8 + ln_i)`): the 4 magic/version bytes, the 4-byte length
field, the 4-byte reference-count field, the `L` text bytes, and 8 bytes plus
the name bytes per reference. (The claim's formula `4 + 4 + L + Σ(8 + ln_i)`
omits the 4-byte reference-count field.) -/
theorem get_bam_header_size_pass1_formula (text : List Nat) (refs : List (List Nat × Nat))
    (rest : List Nat) (ht : text.length < 4294967296) (hn : refs.length < 4294967296)
    (hr : ∀ r ∈ refs, r.1.length < 4294967296) :
    get_bam_header_size_pass1 (encode_bam_header text refs ++ rest)
      = .ok (12 + text.length + (refs.map (fun r => 8 + r.1.length)).sum) :=
  pass1_encode_formula text refs rest ht hn hr

/-- C1 (counterexample): for the well-formed decompressed header stream with
`L = 0` and no references, Pass 1 of `get_bam_header_size` yields 12, not the
`4 + 4 + 0 + 0 = 8` the claim's formula states. -/
theorem get_bam_header_size_pass1_empty_ne_claim :
    get_bam_header_size_pass1 (encode_bam_header [] []) = .ok 12 ∧
      (12 : Nat) ≠ 4 + 4 + 0 + 0 := by
  constructor
  · rfl
  · decide

/-- Witness for C1's amended theorem at a concrete header: text `[65]`
(`L = 1`) and one reference named by two bytes, giving `12 + 1 + (8 + 2) =
23`. -/
theorem get_bam_header_size_pass1_formula_witness :
    (([65] : List Nat).length < 4294967296 ∧
       ∀ r ∈ [(([67, 68] : List Nat), 1000)], r.1.length < 4294967296) ∧
      get_bam_header_size_pass1 (encode_bam_header [65] [([67, 68], 1000)] ++ []) = .ok 23 :=
  ⟨⟨by decide, by decide⟩,
    (get_bam_header_size_pass1_formula [65] [([67, 68], 1000)] []
      (by decide) (by decide) (by decide)).trans (by rfl)⟩

lemma readBytesE_exact4 (a b c d : Nat) (ys : List Nat) :
    readBytesE 4 ([a, b, c, d] ++ ys) = .ok ([a, b, c, d], ys) :=
  readBytesE_exact [a, b, c, d] ys

lemma readBytesE_exact2 (a b : Nat) (ys : List Nat) :
    readBytesE 2 ([a, b] ++ ys) = .ok ([a, b], ys) :=
  readBytesE_exact [a, b] ys

lemma read_block_encode (mtime xfl os crc isize : Nat) (cdata tail : List Nat)
    (hb : cdata.length + 25 < 65536) (hi : isize < 4294967296) :
    read_block (encode_bgzf_block mtime xfl os cdata crc isize ++ tail)
      = .ok (cdata.length + 25, isize, tail) := by
  simp only [encode_bgzf_block, List.append_assoc]
  rw [read_block]
  rw [readBytesE_exact4]
  dsimp only
  rw [read_uint_append (encodeU32 mtime) _ rfl]
  dsimp only
  rw [readBytesE_exact2]
  dsimp only
  rw [read_ushort_encodeU16 6 _ (by decide)]
  dsimp only
  rw [if_neg (by decide : ¬ ((6 : Nat) ≠ 6))]
  rw [readBytesE_exact2]
  dsimp only
  rw [if_neg (by decide : ¬ (([66, 67] : List Nat) ≠ [66, 67]))]
  rw [read_ushort_encodeU16 2 _ (by decide)]
  dsimp only
  rw [if_neg (by decide : ¬ ((2 : Nat) ≠ 2))]
  rw [read_ushort_encodeU16 (cdata.length + 25) _ hb]
  dsimp only
  rw [show cdata.length + 25 - 6 - 19 = cdata.length from by omega]
  rw [readBytesE_exact]
  dsimp only
  rw [read_uint_append (encodeU32 crc) _ rfl]
  dsimp only
  rw [read_uint_encodeU32 isize tail hi]

lemma scan_blocks_done (fuel : Nat) (s : List Nat) (hs bs u : Nat) (h : ¬ bs < u) :
    scan_blocks fuel s hs bs u = .ok (hs + 1) := by
  cases fuel with
  | zero => rw [scan_blocks, if_neg h]
  | succ f => rw [scan_blocks, if_neg h]

/-- C2 (counterexample): the synthetic file of the claim — header-text length
0, zero references, one well-formed block with declared `ISIZE = 8` and
declared `BSIZE = K = 25` — does not make `get_bam_header_size` return
`K + 1 = 26`: the code's uncompressed header size is 12 (not 8), so after the
block only 8 of 12 bytes are accounted for, the scan loops again and runs out
of input. -/
theorem get_bam_header_size_noindex_isize8_ne_claim :
    get_bam_header_size_noindex (encode_bam_header [] []) (encode_bgzf_block 0 0 0 [] 0 8)
        = .error ScanError.eof ∧
      Except.error ScanError.eof ≠ (Except.ok 26 : Except ScanError Nat) := by
  constructor
  · rfl
  · intro h
    exact Except.noConfusion h

/-- C2 (amended): for a synthetic compressed file whose decompressed header
has text length 0 and zero references (uncompressed header size 12 per the
code), consisting of one well-formed compression block whose declared `ISIZE`
is exactly 12 and whose declared `BSIZE` is `K = cdata.length + 25`, the
index-free `get_bam_header_size` stops scanning after that block and returns
`K + 1`. -/
theorem get_bam_header_size_noindex_single_block (mtime xfl os crc : Nat) (cdata : List Nat)
    (hb : cdata.length + 25 < 65536) :
    get_bam_header_size_noindex (encode_bam_header [] [])
        (encode_bgzf_block mtime xfl os cdata crc 12)
      = .ok (cdata.length + 25 + 1) := by
  have hp : get_bam_header_size_pass1 (encode_bam_header [] []) = .ok 12 := rfl
  have hrb : read_block (encode_bgzf_block mtime xfl os cdata crc 12)
      = .ok (cdata.length + 25, 12, []) := by
    have h := read_block_encode mtime xfl os crc 12 cdata [] hb (by decide)
    rwa [List.append_nil] at h
  have hlen : (encode_bgzf_block mtime xfl os cdata crc 12).length = cdata.length + 26 := by
    simp [encode_bgzf_block, encodeU32, encodeU16]
  rw [get_bam_header_size_noindex, hp]
  dsimp only
  rw [hlen]
  rw [scan_blocks, if_pos (by decide : (0 : Nat) < 12), hrb]
  dsimp only
  rw [scan_blocks_done _ _ _ _ _ (by omega)]
  congr 1
  omega

/-- Witness for C2's amended theorem at a concrete block: one byte of
compressed payload, so `K = 26` and the resolver returns 27. -/
theorem get_bam_header_size_noindex_single_block_witness :
    (([42] : List Nat).length + 25 < 65536) ∧
      get_bam_header_size_noindex (encode_bam_header [] [])
          (encode_bgzf_block 0 0 0 [42] 0 12)
        = .ok 27 :=
  ⟨by decide,
    (get_bam_header_size_noindex_single_block 0 0 0 0 [42] (by decide)).trans (by rfl)⟩

lemma encode_bgzf_block_length (mtime xfl os crc isize : Nat) (cdata : List Nat) :
    (encode_bgzf_block mtime xfl os cdata crc isize).length = cdata.length + 26 := by
  simp [encode_bgzf_block, encodeU32, encodeU16]

lemma encode_bgzf_bad_header_length (mtime xfl os xlen id1 id2 slen : Nat) :
    (encode_bgzf_bad_header mtime xfl os xlen id1 id2 slen).length = 16 := by
  simp [encode_bgzf_bad_header, encodeU32, encodeU16]

lemma read_block_bad (mtime xfl os xlen id1 id2 slen : Nat) (rest : List Nat)
    (hx : xlen < 65536) (hsl : slen < 65536)
    (hbad : xlen ≠ 6 ∨ [id1, id2] ≠ [66, 67] ∨ slen ≠ 2) :
    read_block (encode_bgzf_bad_header mtime xfl os xlen id1 id2 slen ++ rest)
      = .error (bad_header_error xlen id1 id2 slen) := by
  simp only [encode_bgzf_bad_header, List.append_assoc]
  rw [read_block]
  rw [readBytesE_exact4]
  dsimp only
  rw [read_uint_append (encodeU32 mtime) _ rfl]
  dsimp only
  rw [readBytesE_exact2]
  dsimp only
  rw [read_ushort_encodeU16 xlen _ hx]
  dsimp only
  by_cases h6 : xlen = 6
  · subst h6
    rw [if_neg (by decide : ¬ ((6 : Nat) ≠ 6))]
    rw [readBytesE_exact2]
    dsimp only
    by_cases hid : ([id1, id2] : List Nat) = [66, 67]
    · rw [if_neg (by simp [hid])]
      rw [read_ushort_encodeU16 slen _ hsl]
      dsimp only
      have hs2 : slen ≠ 2 := by
        rcases hbad with h | h | h
        · exact absurd rfl h
        · exact absurd hid h
        · exact h
      rw [if_pos hs2]
      simp [bad_header_error, hid]
    · rw [if_pos hid]
      simp [bad_header_error, hid]
  · rw [if_pos h6]
    simp [bad_header_error, h6]

lemma scan_blocks_reaches_bad (blocks : List GoodBlock)
    (mtime xfl os xlen id1 id2 slen : Nat) (rest : List Nat)
    (hgood : ∀ b ∈ blocks, b.cdata.length + 25 < 65536 ∧ b.isize < 4294967296)
    (hx : xlen < 65536) (hsl : slen < 65536)
    (hbad : xlen ≠ 6 ∨ [id1, id2] ≠ [66, 67] ∨ slen ≠ 2) :
    ∀ (fuel hs bs u : Nat),
      bs + (blocks.map (fun b => b.isize)).sum < u →
      ((blocks.map encode_good_block).flatten
        ++ (encode_bgzf_bad_header mtime xfl os xlen id1 id2 slen ++ rest)).length < fuel →
      scan_blocks fuel
          ((blocks.map encode_good_block).flatten
            ++ (encode_bgzf_bad_header mtime xfl os xlen id1 id2 slen ++ rest))
          hs bs u
        = .error (bad_header_error xlen id1 id2 slen) := by
  induction blocks with
  | nil =>
    intro fuel hs bs u hsum hfuel
    simp only [List.map_nil, List.flatten_nil, List.nil_append] at hfuel ⊢
    simp only [List.map_nil, List.sum_nil, Nat.add_zero] at hsum
    cases fuel with
    | zero => omega
    | succ f =>
      rw [scan_blocks, if_pos hsum]
      rw [read_block_bad mtime xfl os xlen id1 id2 slen rest hx hsl hbad]
  | cons b bl ih =>
    intro fuel hs bs u hsum hfuel
    simp only [List.map_cons, List.flatten_cons, List.append_assoc] at hfuel ⊢
    simp only [List.map_cons, List.sum_cons] at hsum
    cases fuel with
    | zero => omega
    | succ f =>
      have hbmem := hgood b (List.mem_cons_self b bl)
      have hgood' : ∀ q ∈ bl, q.cdata.length + 25 < 65536 ∧ q.isize < 4294967296 :=
        fun q hq => hgood q (List.mem_cons_of_mem b hq)
      rw [scan_blocks, if_pos (by omega)]
      rw [show encode_good_block b = encode_bgzf_block b.mtime b.xfl b.os b.cdata b.crc b.isize
            from rfl]
      rw [read_block_encode b.mtime b.xfl b.os b.crc b.isize b.cdata _ hbmem.1 hbmem.2]
      dsimp only
      have hgb : (encode_good_block b).length = b.cdata.length + 26 :=
        encode_bgzf_block_length b.mtime b.xfl b.os b.crc b.isize b.cdata
      rw [List.length_append] at hfuel
      exact ih hgood' f (hs + (b.cdata.length + 25)) (bs + b.isize) u (by omega) (by omega)

/-- C4: for every compressed input consisting of any number of well-formed
blocks followed by a block header whose extra-field length is not 6, or whose
subfield identifier bytes are not (66, 67), or whose subfield length is not 2,
if the scan reaches the malformed block before accumulating the uncompressed
header size, the index-free `get_bam_header_size` fails with the corresponding
fatal parse error (one of the three `ValueError`s, never a returned offset and
never a mere end-of-input). -/
theorem get_bam_header_size_noindex_malformed_block (text : List Nat)
    (refs : List (List Nat × Nat)) (blocks : List GoodBlock)
    (mtime xfl os xlen id1 id2 slen : Nat) (rest : List Nat)
    (ht : text.length < 4294967296) (hn : refs.length < 4294967296)
    (hr : ∀ r ∈ refs, r.1.length < 4294967296)
    (hgood : ∀ b ∈ blocks, b.cdata.length + 25 < 65536 ∧ b.isize < 4294967296)
    (hx : xlen < 65536) (hsl : slen < 65536)
    (hbad : xlen ≠ 6 ∨ [id1, id2] ≠ [66, 67] ∨ slen ≠ 2)
    (hsum : (blocks.map (fun b => b.isize)).sum
      < 12 + text.length + (refs.map (fun r => 8 + r.1.length)).sum) :
    get_bam_header_size_noindex (encode_bam_header text refs)
        ((blocks.map encode_good_block).flatten
          ++ (encode_bgzf_bad_header mtime xfl os xlen id1 id2 slen ++ rest))
      = .error (bad_header_error xlen id1 id2 slen)
    ∧ bad_header_error xlen id1 id2 slen ≠ ScanError.eof := by
  have hp : get_bam_header_size_pass1 (encode_bam_header text refs)
      = .ok (12 + text.length + (refs.map (fun r => 8 + r.1.length)).sum) := by
    have h := pass1_encode_formula text refs [] ht hn hr
    rwa [List.append_nil] at h
  constructor
  · rw [get_bam_header_size_noindex, hp]
    dsimp only
    exact scan_blocks_reaches_bad blocks mtime xfl os xlen id1 id2 slen rest hgood hx hsl hbad
      _ 0 0 _ (by omega) (Nat.lt_succ_self _)
  · simp only [bad_header_error]
    split
    · decide
    · split
      · decide
      · decide

/-- Witness for C4 at a concrete input: no leading blocks and a header with
extra-field length 7, which fails with the XLEN parse error. -/
theorem get_bam_header_size_noindex_malformed_block_witness :
    ((7 : Nat) ≠ 6 ∨ ([66, 67] : List Nat) ≠ [66, 67] ∨ (2 : Nat) ≠ 2) ∧
      get_bam_header_size_noindex (encode_bam_header [] [])
          ((([] : List GoodBlock).map encode_good_block).flatten
            ++ (encode_bgzf_bad_header 0 0 0 7 66 67 2 ++ []))
        = .error ScanError.badXlen :=
  ⟨Or.inl (by decide),
    ((get_bam_header_size_noindex_malformed_block [] [] [] 0 0 0 7 66 67 2 []
        (by decide) (by decide) (by decide) (by decide) (by decide) (by decide)
        (Or.inl (by decide)) (by decide)).1).trans (by decide)⟩

lemma readBytesE_ok_len {n : Nat} {s p r : List Nat} (h : readBytesE n s = .ok (p, r)) :
    r.length + n = s.length := by
  rw [readBytesE] at h
  by_cases hle : n ≤ s.length
  · rw [if_pos hle] at h
    injection h with h2
    injection h2 with ha hb
    subst hb
    simp [List.length_drop]
    omega
  · rw [if_neg hle] at h
    exact Except.noConfusion h

lemma read_uint_ok_len {s : List Nat} {v : Nat} {r : List Nat}
    (h : read_uint s = .ok (v, r)) : r.length + 4 = s.length := by
  rw [read_uint] at h
  cases hb : readBytesE 4 s with
  | error e => simp [hb] at h
  | ok pr =>
    obtain ⟨bs, rest⟩ := pr
    rw [hb] at h
    dsimp only at h
    injection h with h2
    injection h2 with ha hb2
    subst hb2
    exact readBytesE_ok_len hb

lemma read_ushort_ok_len {s : List Nat} {v : Nat} {r : List Nat}
    (h : read_ushort s = .ok (v, r)) : r.length + 2 = s.length := by
  rw [read_ushort] at h
  cases hb : readBytesE 2 s with
  | error e => simp [hb] at h
  | ok pr =>
    obtain ⟨bs, rest⟩ := pr
    rw [hb] at h
    dsimp only at h
    injection h with h2
    injection h2 with ha hb2
    subst hb2
    exact readBytesE_ok_len hb

lemma read_block_shrinks {s : List Nat} {b i : Nat} {r : List Nat}
    (h : read_block s = .ok (b, i, r)) : r.length < s.length := by
  rw [read_block] at h
  cases h1 : readBytesE 4 s with
  | error e => simp [h1] at h
  | ok p1 =>
    obtain ⟨x1, s1⟩ := p1
    rw [h1] at h
    dsimp only at h
    cases h2 : read_uint s1 with
    | error e => simp [h2] at h
    | ok p2 =>
      obtain ⟨x2, s2⟩ := p2
      rw [h2] at h
      dsimp only at h
      cases h3 : readBytesE 2 s2 with
      | error e => simp [h3] at h
      | ok p3 =>
        obtain ⟨x3, s3⟩ := p3
        rw [h3] at h
        dsimp only at h
        cases h4 : read_ushort s3 with
        | error e => simp [h4] at h
        | ok p4 =>
          obtain ⟨xlen, s4⟩ := p4
          rw [h4] at h
          dsimp only at h
          by_cases hx6 : xlen ≠ 6
          · rw [if_pos hx6] at h
            exact Except.noConfusion h
          · rw [if_neg hx6] at h
            cases h5 : readBytesE 2 s4 with
            | error e => simp [h5] at h
            | ok p5 =>
              obtain ⟨ids, s5⟩ := p5
              rw [h5] at h
              dsimp only at h
              by_cases hids : ids ≠ [66, 67]
              · rw [if_pos hids] at h
                exact Except.noConfusion h
              · rw [if_neg hids] at h
                cases h6 : read_ushort s5 with
                | error e => simp [h6] at h
                | ok p6 =>
                  obtain ⟨slen, s6⟩ := p6
                  rw [h6] at h
                  dsimp only at h
                  by_cases hsl2 : slen ≠ 2
                  · rw [if_pos hsl2] at h
                    exact Except.noConfusion h
                  · rw [if_neg hsl2] at h
                    cases h7 : read_ushort s6 with
                    | error e => simp [h7] at h
                    | ok p7 =>
                      obtain ⟨bsize, s7⟩ := p7
                      rw [h7] at h
                      dsimp only at h
                      cases h8 : readBytesE (bsize - xlen - 19) s7 with
                      | error e => simp [h8] at h
                      | ok p8 =>
                        obtain ⟨x8, s8⟩ := p8
                        rw [h8] at h
                        dsimp only at h
                        cases h9 : read_uint s8 with
                        | error e => simp [h9] at h
                        | ok p9 =>
                          obtain ⟨x9, s9⟩ := p9
                          rw [h9] at h
                          dsimp only at h
                          cases h10 : read_uint s9 with
                          | error e => simp [h10] at h
                          | ok p10 =>
                            obtain ⟨isize, s10⟩ := p10
                            rw [h10] at h
                            dsimp only at h
                            injection h with h11
                            injection h11 with ha hb3
                            injection hb3 with hc hd
                            subst hd
                            have l1 := readBytesE_ok_len h1
                            have l2 := read_uint_ok_len h2
                            have l3 := readBytesE_ok_len h3
                            have l4 := read_ushort_ok_len h4
                            have l5 := readBytesE_ok_len h5
                            have l6 := read_ushort_ok_len h6
                            have l7 := read_ushort_ok_len h7
                            have l8 := readBytesE_ok_len h8
                            have l9 := read_uint_ok_len h9
                            have l10 := read_uint_ok_len h10
                            omega

lemma scan_blocks_fuel_congr (n : Nat) :
    ∀ (s : List Nat) (f1 f2 hs bs u : Nat), s.length ≤ n →
      s.length < f1 → s.length < f2 →
      scan_blocks f1 s hs bs u = scan_blocks f2 s hs bs u := by
  induction n with
  | zero =>
    intro s f1 f2 hs bs u hn h1 h2
    have hs0 : s = [] := List.length_eq_zero.mp (Nat.le_zero.mp hn)
    subst hs0
    by_cases hbu : bs < u
    · cases f1 with
      | zero => omega
      | succ g1 =>
        cases f2 with
        | zero => omega
        | succ g2 =>
          rw [scan_blocks, scan_blocks, if_pos hbu, if_pos hbu]
          rw [show read_block ([] : List Nat) = .error ScanError.eof from rfl]
    · rw [scan_blocks_done f1 _ _ _ _ hbu, scan_blocks_done f2 _ _ _ _ hbu]
  | succ n ih =>
    intro s f1 f2 hs bs u hn h1 h2
    by_cases hbu : bs < u
    · cases f1 with
      | zero => omega
      | succ g1 =>
        cases f2 with
        | zero => omega
        | succ g2 =>
          rw [scan_blocks, scan_blocks, if_pos hbu, if_pos hbu]
          cases hrb : read_block s with
          | error e => rfl
          | ok t =>
            obtain ⟨bb, ii, rest⟩ := t
            dsimp only
            have hlt := read_block_shrinks hrb
            exact ih rest g1 g2 _ _ u (by omega) (by omega) (by omega)
    · rw [scan_blocks_done f1 _ _ _ _ hbu, scan_blocks_done f2 _ _ _ _ hbu]

lemma foldl_min_mem : ∀ (as : List Nat) (a : Nat), as.foldl Nat.min a ∈ a :: as := by
  intro as
  induction as with
  | nil => intro a; exact List.mem_cons_self a []
  | cons b bs ih =>
    intro a
    simp only [List.foldl_cons]
    have h := ih (Nat.min a b)
    rcases List.mem_cons.mp h with h1 | h1
    · by_cases hab : a ≤ b
      · have hm : Nat.min a b = a := by unfold Nat.min; exact if_pos hab
        rw [h1, hm]
        exact List.mem_cons_self a (b :: bs)
      · have hm : Nat.min a b = b := by unfold Nat.min; exact if_neg hab
        rw [h1, hm]
        exact List.mem_cons_of_mem a (List.mem_cons_self b bs)
    · exact List.mem_cons_of_mem a (List.mem_cons_of_mem b h1)

lemma foldl_min_le : ∀ (as : List Nat) (a x : Nat), x ∈ a :: as → as.foldl Nat.min a ≤ x := by
  intro as
  induction as with
  | nil =>
    intro a x hx
    rcases List.mem_cons.mp hx with h | h
    · simp [h]
    · exact absurd h (List.not_mem_nil x)
  | cons b bs ih =>
    intro a x hx
    simp only [List.foldl_cons]
    rcases List.mem_cons.mp hx with h | h
    · calc bs.foldl Nat.min (Nat.min a b) ≤ Nat.min a b :=
            ih (Nat.min a b) (Nat.min a b) (List.mem_cons_self _ _)
        _ ≤ a := Nat.min_le_left a b
        _ = x := h.symm
    · rcases List.mem_cons.mp h with h2 | h2
      · calc bs.foldl Nat.min (Nat.min a b) ≤ Nat.min a b :=
              ih (Nat.min a b) (Nat.min a b) (List.mem_cons_self _ _)
          _ ≤ b := Nat.min_le_right a b
          _ = x := h2.symm
      · exact ih (Nat.min a b) x (List.mem_cons_of_mem _ h2)

/-- C3: for every parsed index containing at least one interval, the
index-assisted branch of `get_bam_header_size` returns the minimum file
offset over all intervals of all reference entries. -/
theorem get_bam_header_size_indexed_min (idx : ParsedIndex)
    (h : index_offsets idx ≠ []) :
    ∃ m, get_bam_header_size_indexed idx = some m ∧ m ∈ index_offsets idx ∧
      ∀ o ∈ index_offsets idx, m ≤ o := by
  cases hoff : index_offsets idx with
  | nil => exact absurd hoff h
  | cons x xs =>
    refine ⟨xs.foldl Nat.min x, ?_, ?_, ?_⟩
    · rw [get_bam_header_size_indexed, hoff]
      rfl
    · exact foldl_min_mem xs x
    · exact fun o ho => foldl_min_le xs x o ho

/-- Witness for C3 at the spec's test vector: offsets {500, 200, 800} give
minimum 200. -/
theorem get_bam_header_size_indexed_min_witness :
    index_offsets example_index ≠ [] ∧
      get_bam_header_size_indexed example_index = some 200 ∧
      (∃ m, get_bam_header_size_indexed example_index = some m ∧
        m ∈ index_offsets example_index ∧ ∀ o ∈ index_offsets example_index, m ≤ o) :=
  ⟨by decide, by decide, get_bam_header_size_indexed_min example_index (by decide)⟩

lemma add_route_empty_eq : ∀ (P : List String), P ≠ [] → ∀ (hnd : Nat),
    add_route [] P hnd = some (build_spine P hnd) := by
  intro P
  induction P with
  | nil => intro h; exact absurd rfl h
  | cons x P' ih =>
    intro _ hnd
    cases P' with
    | nil => rfl
    | cons y rest =>
      have h2 := ih (by simp) hnd
      have step : add_route [] (x :: y :: rest) hnd
          = (match add_route [] (y :: rest) hnd with
             | none => none
             | some sub => some (assocSet [] x (RouteEntry.node sub))) := rfl
      rw [step, h2]
      rfl

lemma get_route_handler_spine_hit : ∀ (P : List String), P ≠ [] →
    ∀ (hnd : Nat) (extra : List String),
      get_route_handler (build_spine P hnd) (P ++ extra) = some (hnd, extra) := by
  intro P
  induction P with
  | nil => intro h; exact absurd rfl h
  | cons x P' ih =>
    intro _ hnd extra
    cases P' with
    | nil =>
      simp [get_route_handler, assocGet, build_spine]
    | cons y rest =>
      have h2 := ih (by simp) hnd extra
      simp only [List.cons_append] at h2 ⊢
      rw [show build_spine (x :: y :: rest) hnd
            = [(x, RouteEntry.node (build_spine (y :: rest) hnd))] from rfl]
      rw [get_route_handler]
      rw [show assocGet [(x, RouteEntry.node (build_spine (y :: rest) hnd))] x
            = some (RouteEntry.node (build_spine (y :: rest) hnd)) from by simp [assocGet]]
      exact h2

lemma get_route_handler_spine_miss : ∀ (P : List String), P ≠ [] →
    ∀ (hnd : Nat) (Q : List String), (∀ e, Q ≠ P ++ e) →
      get_route_handler (build_spine P hnd) Q = none := by
  intro P
  induction P with
  | nil => intro h; exact absurd rfl h
  | cons x P' ih =>
    intro _ hnd Q hQ
    cases P' with
    | nil =>
      cases Q with
      | nil => rfl
      | cons q qs =>
        by_cases hqx : q = x
        · subst hqx
          exact absurd rfl (hQ qs)
        · rw [show build_spine [x] hnd = [(x, RouteEntry.handler hnd)] from rfl]
          rw [get_route_handler]
          rw [show assocGet [(x, RouteEntry.handler hnd)] q = none from by
            simp [assocGet]
            intro h
            exact absurd h.symm hqx]
    | cons y rest =>
      cases Q with
      | nil => rfl
      | cons q qs =>
        by_cases hqx : q = x
        · subst hqx
          rw [show build_spine (q :: y :: rest) hnd
                = [(q, RouteEntry.node (build_spine (y :: rest) hnd))] from rfl]
          rw [get_route_handler]
          rw [show assocGet [(q, RouteEntry.node (build_spine (y :: rest) hnd))] q
                = some (RouteEntry.node (build_spine (y :: rest) hnd)) from by simp [assocGet]]
          dsimp only
          refine ih (by simp) hnd qs ?_
          intro e he
          exact hQ e (by rw [he]; simp)
        · rw [show build_spine (x :: y :: rest) hnd
                = [(x, RouteEntry.node (build_spine (y :: rest) hnd))] from rfl]
          rw [get_route_handler]
          rw [show assocGet [(x, RouteEntry.node (build_spine (y :: rest) hnd))] q = none from by
            simp [assocGet]
            intro h
            exact absurd h.symm hqx]

/-- C5: registering a non-empty path `P` with handler `hnd` in an empty
router produces a trie on which `get_route_handler` resolves `P ++ extra` to
`(hnd, extra)` (in particular `P` itself to `(hnd, [])`), and fails with
`NotFound` (`none`) on every path that is not an extension of `P` — both for
paths that leave the registered spine (absent segment) and for proper
prefixes of `P`, whose walk ends on an inner node. -/
theorem router_add_route_resolve (P : List String) (hnd : Nat) (extra Q : List String)
    (hP : P ≠ []) (hQ : ∀ e, Q ≠ P ++ e) :
    ∃ m, add_route [] P hnd = some m ∧
      get_route_handler m (P ++ extra) = some (hnd, extra) ∧
      get_route_handler m Q = none :=
  ⟨build_spine P hnd, add_route_empty_eq P hP hnd,
    get_route_handler_spine_hit P hP hnd extra,
    get_route_handler_spine_miss P hP hnd Q hQ⟩

/-- Witness for C5 at the route `["reads"]` with handler 7: `/reads/rec1`
resolves to the handler with remainder `["rec1"]` and `/nope` is
`NotFound`. -/
theorem router_add_route_resolve_witness :
    ((["reads"] : List String) ≠ [] ∧ (∀ e, (["nope"] : List String) ≠ ["reads"] ++ e)) ∧
      (∃ m, add_route [] ["reads"] 7 = some m ∧
        get_route_handler m (["reads"] ++ ["rec1"]) = some (7, ["rec1"]) ∧
        get_route_handler m ["nope"] = none) :=
  ⟨⟨by simp, fun e he => by
      injection he with h1 h2
      exact absurd h1 (by decide)⟩,
    router_add_route_resolve ["reads"] 7 ["rec1"] ["nope"] (by simp)
      (fun e he => by
        injection he with h1 h2
        exact absurd h1 (by decide))⟩

/-- C6: the request whose `Accept` header is exactly
`application/vnd.ga4gh.htsget.v1.1.0+json` is rejected with
`UnsupportedMediaType` by `check_headers`, contradicting the claim that it
passes validation: the source slices the version out of the full header value
(`accept[18:-5]`, yielding `4gh.htsget.v1.1.0`) instead of out of the part
after `application/`, and `int("4gh")` fails. -/
theorem check_headers_v110_rejected :
    check_headers (some "application/vnd.ga4gh.htsget.v1.1.0+json")
        = .error (unsupportedMediaTypeHttpError "application/vnd.ga4gh.htsget.v1.1.0+json") ∧
      (pySliceToNeg "application/vnd.ga4gh.htsget.v1.1.0+json".toList 18 5).asString
        = "4gh.htsget.v1.1.0" := by
  constructor
  · rfl
  · rfl

lemma assocGet_set_ne {K V : Type} [DecidableEq K] (m : List (K × V)) (k1 k : K) (v : V)
    (h : k1 ≠ k) : assocGet (assocSet m k1 v) k = assocGet m k := by
  induction m with
  | nil => simp [assocSet, assocGet, h]
  | cons p rest ih =>
    obtain ⟨pk, pv⟩ := p
    by_cases hpk : pk = k1
    · subst hpk
      simp [assocSet, assocGet, h]
    · by_cases hpk2 : pk = k
      · have hk1 : ¬ k = k1 := fun hh => h hh.symm
        simp [assocSet, assocGet, hpk, hpk2, hk1]
      · simp [assocSet, assocGet, hpk, hpk2, ih]

/-- C7: once a serialized ticket `v` is stored in an `ApiRouteHandler`'s
cache under a data-resource key `k`, any subsequent `handle` call leaves that
key's value unchanged, and a subsequent call whose record resolves to `k`
returns the stored payload verbatim without touching
`index_resource.exists` and without running `create_index`. -/
theorem ticket_cache_write_once {K : Type} [DecidableEq K] (env : ApiEnv K)
    (cache : List (K × String)) (k : K) (v : String)
    (record_id : List String) (query_format : Option String)
    (h : assocGet cache k = some v) :
    assocGet (api_handle env cache record_id query_format).cache k = some v ∧
      ((env.resolve record_id (query_format.getD env.default_format)).1 = k →
        (api_handle env cache record_id query_format).body = v ∧
        (api_handle env cache record_id query_format).checked_index = false ∧
        (api_handle env cache record_id query_format).created_index = false) := by
  simp only [api_handle]
  cases hget : assocGet cache ((env.resolve record_id (query_format.getD env.default_format)).1) with
  | some t =>
    dsimp only
    constructor
    · exact h
    · intro hkk
      rw [hkk] at hget
      have ht : t = v := by
        have h2 := hget.symm.trans h
        injection h2
      exact ⟨ht, rfl, rfl⟩
  | none =>
    dsimp only
    have hne : (env.resolve record_id (query_format.getD env.default_format)).1 ≠ k := by
      intro hkk
      rw [hkk] at hget
      rw [hget] at h
      exact Option.noConfusion h
    constructor
    · rw [assocGet_set_ne cache _ k _ hne]
      exact h
    · intro hkk
      exact absurd hkk hne

/-- Witness for C7 at a concrete handler state: key 5 is cached with payload
`"CACHED"`; a request resolving to key 5 returns it verbatim with no index
work. -/
theorem ticket_cache_write_once_witness :
    assocGet [(5, "CACHED")] 5 = some "CACHED" ∧
      (assocGet (api_handle example_api_env [(5, "CACHED")] ["x"] none).cache 5 = some "CACHED" ∧
        ((example_api_env.resolve ["x"]
            ((none : Option String).getD example_api_env.default_format)).1 = 5 →
          (api_handle example_api_env [(5, "CACHED")] ["x"] none).body = "CACHED" ∧
          (api_handle example_api_env [(5, "CACHED")] ["x"] none).checked_index = false ∧
          (api_handle example_api_env [(5, "CACHED")] ["x"] none).created_index = false)) :=
  ⟨rfl, ticket_cache_write_once example_api_env [(5, "CACHED")] 5 "CACHED" ["x"] none rfl⟩

/-- C8: the error-response contract holds for `NotFound` (status 404, JSON
content type, error field `"NotFound"`, the descriptive message), but fails
for the 415 error: `UnsupportedMediaTypeHttpError.__init__` passes its
human-readable message where `HttpError` expects the error-kind name, so the
`error` field would be the message text rather than
`"UnsupportedMediaType"` — and with empty `args` and no cause,
`HttpError.message` evaluates `None.args` and no response body is produced at
all. -/
theorem handle_error_unsupported_media_type_bug :
    handle_error (unsupportedMediaTypeHttpError "text/plain") = none ∧
      (unsupportedMediaTypeHttpError "text/plain").error_type ≠ "UnsupportedMediaType" ∧
      handle_error (notFoundHttpError "/reads/x")
        = some { status := 404, content_type := "application/json",
                 error_field := "NotFound",
                 message_field := "The resource requested was not found" } := by
  refine ⟨rfl, ?_, rfl⟩
  decide

/-- C9: every 200 ticket response carries `OK_RESPONSE_CONTENT_TYPE` as its
`Content-Type`, but that constant is not an f-string in the source, so its
value is the uninterpolated template (braces and all) and not
`application/vnd.ga4gh.htsget.v1.1.0+json; charset=utf-8` as the claim
states. -/
theorem ok_response_content_type_not_versioned :
    (api_handle example_api_env [] ["x"] none).status = 200 ∧
      (api_handle example_api_env [] ["x"] none).content_type = OK_RESPONSE_CONTENT_TYPE ∧
      (api_handle example_api_env [] ["x"] none).content_type
        ≠ "application/vnd.ga4gh.htsget.v1.1.0+json; charset=utf-8" := by
  refine ⟨rfl, rfl, ?_⟩
  decide

/-- C10: a request that carries no `Accept` header passes `check_headers`
unconditionally, and the `do_GET` sequencing then proceeds to routing: the
request's outcome is exactly the routing outcome. -/
theorem check_headers_no_accept (route_result : Except HttpErrorModel Unit) :
    check_headers none = .ok () ∧ do_GET_model none route_result = route_result :=
  ⟨rfl, rfl⟩

/-- Witness for C10 at a concrete routing outcome. -/
theorem check_headers_no_accept_witness :
    check_headers none = .ok () ∧ do_GET_model none (.ok ()) = .ok () :=
  check_headers_no_accept (.ok ())
